import Mathlib

/-!
# Backgrid header sort machinery: a shallow embedding

This file embeds the sort-relevant parts of `src/header.js` (the
`Backgrid.HeaderCell` view): the direction cycle in `onClick`, the comparator
factory `makeComparator`, the dispatch `sort`, the cid fallback comparator
`_cidComparator`, and the cross-cell synchronization handler
`_resetCellDirection`.

Modelling conventions:
* JS `null`/`undefined` for a value of type `τ` is `Option τ`'s `none`.
* Sortable cell values are JS numbers or `undefined`, modelled as `Option Int`.
* A direction is the raw JS value passed around by the code: `null` or an
  arbitrary string, i.e. `Option String` (the code only gives meaning to
  `"ascending"` and `"descending"`).
* `Backbone.Collection#sort` / `fullCollection.sort()` with an arity-2
  comparator is a stable comparison sort of the models array; it is modelled
  with `List.insertionSort` on the relation `cmp a b ≤ 0`.
* Reference identity of collections (JS `==` on objects in
  `_resetCellDirection`, and the `collection` payload of the
  `"backgrid:sort"` event) is modelled by a numeric `id` field.
* `Backbone.PageableCollection#setSorting` and `#fetch` are external
  collaborators (backbone-pageable / backbone); they are modelled as
  recording the sort parameters resp. bumping a fetch counter, which is all
  the claims observe about them.
-/

namespace Backgrid

/-- A Backbone model as the sort code sees it: a client id (`cid`, possibly
`undefined`) and attributes readable with `model.get(attr)`. -/
structure Model where
  cid : Option String
  attrs : List (String × Int)
  deriving DecidableEq, Repr

/-- Embeds `model.get(attr)`: reads the attribute, `undefined` (`none`) if absent. -/
def Model.get (m : Model) (attr : String) : Option Int :=
  m.attrs.lookup attr

/-- JS `<` on two values that are numbers or `undefined`: `undefined`
coerces to `NaN` and every comparison with `NaN` is `false`. -/
def jsLt : Option Int → Option Int → Bool
  | some a, some b => a < b
  | _, _ => false

/-- Decimal reading of a character list with accumulator; `none` as soon as
a non-digit appears. -/
def decimalNat? : List Char → Nat → Option Nat
  | [], acc => some acc
  | c :: cs, acc =>
    if c.isDigit then decimalNat? cs (acc * 10 + (c.toNat - 48)) else none

/-- JS `Number(s)` (the `* 1` coercion) on the strings this code converts —
cid suffixes, which Backbone builds as decimal digit strings: the empty
string converts to `0`, a digit string to its value, anything else to `NaN`
(`none`). -/
def jsStringToNumber (s : String) : Option Int :=
  if s.data = [] then some 0
  else (decimalNat? s.data 0).map Int.ofNat

/-- JS `s.slice(1)`: the string without its first character. -/
def jsSlice1 (s : String) : String := ⟨s.data.drop 1⟩

/-- The default overridable value extractor (`HeaderCell#value`):
`return model.get(attr);`. -/
def defaultValue (model : Model) (attr : String) : Option Int :=
  model.get attr

/-- The default overridable comparator (`HeaderCell#comparator`): `0` on
`===`, `-1` on `<`, else `1`. -/
def defaultComparator (left right : Option Int) : Int :=
  if left = right then 0
  else if jsLt left right then -1
  else 1

/-- Embeds `HeaderCell#_cidComparator`: compares the numeric suffixes of the two
models' cids (`cid.slice(1) * 1`) when both cids are defined; returns `0`
otherwise (including the `NaN` cases, where both JS comparisons are false). -/
def _cidComparator (left right : Model) : Int :=
  match left.cid, right.cid with
  | some lcid, some rcid =>
    let ln := jsStringToNumber (jsSlice1 lcid)
    let rn := jsStringToNumber (jsSlice1 rcid)
    if jsLt ln rn then -1
    else if jsLt rn ln then 1
    else 0
  | _, _ => 0

/-- The state of one `HeaderCell` that the sort logic reads: its column's
`name`, the evaluated `sortable` flag (`Backgrid.callByNeed` result at the
current activation), the collection it is bound to (by reference id), its
`_direction`, and its (possibly overridden) `comparator` and `value`. -/
structure HeaderCell where
  columnName : String
  sortable : Bool
  collectionId : Nat
  _direction : Option String
  comparator : Option Int → Option Int → Int
  value : Model → String → Option Int

/-- Embeds `HeaderCell#makeComparator`: returns nothing when `attr` or `order` is
falsy; otherwise a binary function on models, applying the cell's base
comparator to the extracted values — swapped when `order === 1`. -/
def HeaderCell.makeComparator (cell : HeaderCell) (attr : String)
    (order : Option Int) : Option (Model → Model → Int) :=
  if attr = "" ∨ order = none ∨ order = some 0 then none
  else
    let invert := order = some 1
    if invert then
      some fun left right => cell.comparator (cell.value right attr) (cell.value left attr)
    else
      some fun left right => cell.comparator (cell.value left attr) (cell.value right attr)

/-- How the dispatch branch is chosen in `HeaderCell#sort`: a plain
`Backbone.Collection`, a `Backbone.PageableCollection` with `mode ==
"client"`, or a `Backbone.PageableCollection` in another mode
(server/infinite). -/
inductive CollectionKind
  | plain
  | pageableClient
  | pageableServer
  deriving DecidableEq, Repr

/-- The collection as the sort code observes it: its reference identity,
dispatch kind, models (the `fullCollection`'s models in client-paged mode),
active comparator (`collection.comparator`, resp.
`fullCollection.comparator`), the parameters last recorded by `setSorting`,
and how many fetches were issued. -/
structure Collection where
  id : Nat
  kind : CollectionKind
  models : List Model
  comparator : Option (Model → Model → Int)
  sortingParams : Option (Option String × Option Int)
  fetchCount : Nat

/-- Backbone's in-place `sort()` with an arity-2 comparator: a stable
comparison sort, modelled as insertion sort on `cmp a b ≤ 0`. -/
def sortModels (cmp : Model → Model → Int) (l : List Model) : List Model :=
  List.insertionSort (fun a b => cmp a b ≤ 0) l

/-- The payload of the `"backgrid:sort"` event triggered at the end of
`HeaderCell#sort`: column name, direction, comparator used, and the
collection reference. -/
structure SortEvent where
  columnName : String
  direction : Option String
  comparator : Model → Model → Int
  collectionId : Nat

/-- Truthiness (JS) of the `order` value (`null`, `-1` or `1` here; `0` would
also be falsy). -/
def orderTruthy : Option Int → Bool
  | some n => n ≠ 0
  | none => false

/-- Embeds line 171 of `HeaderCell#sort`:
`direction == "ascending" ? -1 : direction == "descending" ? 1 : null`. -/
def sortSign (direction : Option String) : Option Int :=
  if direction = some "ascending" then some (-1)
  else if direction = some "descending" then some 1
  else none

/-- Embeds `HeaderCell#sort(columnName, direction)`: maps the direction to an
order sign, builds the comparator (falling back to `_cidComparator`),
dispatches per collection kind, and triggers one `"backgrid:sort"` event. -/
def HeaderCell.sort (cell : HeaderCell) (collection : Collection)
    (columnName : String) (direction : Option String) :
    Collection × List SortEvent :=
  let order := sortSign direction
  let comparator := (cell.makeComparator columnName order).getD _cidComparator
  let collection' :=
    match collection.kind with
    | .pageableServer =>
      -- setSorting(order ? columnName : null, order, ...); fetch({reset: true})
      { collection with
          sortingParams := some (if orderTruthy order then some columnName else none, order)
          fetchCount := collection.fetchCount + 1 }
    | .pageableClient =>
      -- setSorting(...); if (!fullCollection.comparator) { ... = comparator };
      -- fullCollection.sort()
      let cmp := collection.comparator.getD comparator
      { collection with
          sortingParams := some (if orderTruthy order then some columnName else none, order)
          comparator := some cmp
          models := sortModels cmp collection.models }
    | .plain =>
      -- collection.comparator = comparator; collection.sort()
      { collection with
          comparator := some comparator
          models := sortModels comparator collection.models }
  (collection', [⟨columnName, direction, comparator, collection.id⟩])

/-- Embeds `HeaderCell#_resetCellDirection`: on a `"backgrid:sort"` event from this
cell's own collection, reset the direction to `null` when another column was
sorted, otherwise adopt the broadcast direction. -/
def HeaderCell._resetCellDirection (cell : HeaderCell) (ev : SortEvent) :
    HeaderCell :=
  if ev.collectionId = cell.collectionId then
    if ev.columnName ≠ cell.columnName then { cell with _direction := none }
    else { cell with _direction := ev.direction }
  else cell

/-- Delivery of one `"backgrid:sort"` event to every header cell.  Each cell
subscribed via `listenTo(this.collection, "backgrid:sort", ...)`; delivering
to all cells is faithful because the handler's own `collection ==
this.collection` guard makes it a no-op on cells bound to another
collection. -/
def broadcast (cells : List HeaderCell) (ev : SortEvent) : List HeaderCell :=
  cells.map fun c => c._resetCellDirection ev

/-- Embeds `HeaderCell#onClick` (after `preventDefault`): when the column is
sortable, cycle `ascending → descending → null → ascending` and dispatch
`sort`; otherwise do nothing. -/
def HeaderCell.onClick (cell : HeaderCell) (collection : Collection) :
    Collection × List SortEvent :=
  if cell.sortable then
    if cell._direction = some "ascending" then
      cell.sort collection cell.columnName (some "descending")
    else if cell._direction = some "descending" then
      cell.sort collection cell.columnName none
    else
      cell.sort collection cell.columnName (some "ascending")
  else (collection, [])

/-- A click on the `i`-th header cell of a grid: run `onClick` and deliver
the triggered events to every cell (Backbone `trigger` runs listeners
synchronously before `sort` returns). -/
def clickCell (cells : List HeaderCell) (collection : Collection) (i : Nat) :
    List HeaderCell × Collection × List SortEvent :=
  match cells[i]? with
  | none => (cells, collection, [])
  | some cell =>
    let r := cell.onClick collection
    (r.2.foldl broadcast cells, r.1, r.2)

/-- Runs `clickCell`, keeping only the grid state. -/
def clickStep (cells : List HeaderCell) (collection : Collection) (i : Nat) :
    List HeaderCell × Collection :=
  let r := clickCell cells collection i
  (r.1, r.2.1)

/-- A sort dispatch from one cell followed by the synchronous delivery of the
triggered events to all header cells. -/
def dispatchSort (cells : List HeaderCell) (collection : Collection)
    (cell : HeaderCell) (columnName : String) (direction : Option String) :
    List HeaderCell × Collection :=
  let r := cell.sort collection columnName direction
  (r.2.foldl broadcast cells, r.1)

/-! ## Concrete fixtures for witnesses -/

/-- A header cell with the default `comparator` and `value` (no column
overrides, no constructor options), as built by `HeaderRow#makeCell`. -/
def mkDefaultCell (name : String) (collId : Nat) : HeaderCell :=
  { columnName := name
    sortable := true
    collectionId := collId
    _direction := none
    comparator := defaultComparator
    value := defaultValue }

/-- First-created record of the running example: `{age: 30}`, cid `c1`. -/
def rec30 : Model := ⟨some "c1", [("age", 30)]⟩

/-- Second-created record of the running example: `{age: 10}`, cid `c2`. -/
def rec10 : Model := ⟨some "c2", [("age", 10)]⟩

/-- Third-created record of the running example: `{age: 20}`, cid `c3`. -/
def rec20 : Model := ⟨some "c3", [("age", 20)]⟩

/-- A plain local collection holding the running example in insertion
order. -/
def ageCollection : Collection :=
  ⟨0, .plain, [rec30, rec10, rec20], none, none, 0⟩

/-! ## Claims -/

/-- C1 (counterexample).  The claim says `makeComparator` interprets a
`directionSign` of `-1` as inverting the base ordering, i.e. that the
produced comparator applies the base comparator to the swapped extracted
values.  On the default cell with records of ages `1` and `2`, the
comparator produced at sign `-1` returns `-1`, while the base comparator on
the swapped extracted values returns `1`: sign `-1` is the natural order,
not the inversion. -/
theorem c1_counterexample :
    ((mkDefaultCell "age" 0).makeComparator "age" (some (-1))).map
        (fun f => f ⟨some "c1", [("age", 1)]⟩ ⟨some "c2", [("age", 2)]⟩)
      = some (-1) ∧
    (mkDefaultCell "age" 0).comparator
        ((mkDefaultCell "age" 0).value ⟨some "c2", [("age", 2)]⟩ "age")
        ((mkDefaultCell "age" 0).value ⟨some "c1", [("age", 1)]⟩ "age")
      = 1 := by
  constructor <;> rfl

/-- C1 (amended).  The sort dispatch maps `ascending → -1`,
`descending → +1` and anything else (in particular `none`) to absent; and
`makeComparator` interprets a sign of `+1` (descending) as inverting the
base ordering — the produced comparator applies the base comparator to the
swapped extracted values — while `-1` (ascending) means natural order. -/
theorem c1_sign_mapping (cell : HeaderCell) (attr : String) (h : attr ≠ "") :
    sortSign (some "ascending") = some (-1) ∧
    sortSign (some "descending") = some 1 ∧
    sortSign none = none ∧
    cell.makeComparator attr (some 1)
      = some (fun left right =>
          cell.comparator (cell.value right attr) (cell.value left attr)) ∧
    cell.makeComparator attr (some (-1))
      = some (fun left right =>
          cell.comparator (cell.value left attr) (cell.value right attr)) := by
  refine ⟨rfl, rfl, rfl, ?_, ?_⟩ <;> simp [HeaderCell.makeComparator, h]

/-- Witness for `c1_sign_mapping` at `attr = "age"` on the default cell. -/
theorem c1_sign_mapping_witness :
    sortSign (some "ascending") = some (-1) ∧
    sortSign (some "descending") = some 1 ∧
    sortSign none = none ∧
    (mkDefaultCell "age" 0).makeComparator "age" (some 1)
      = some (fun left right =>
          (mkDefaultCell "age" 0).comparator
            ((mkDefaultCell "age" 0).value right "age")
            ((mkDefaultCell "age" 0).value left "age")) ∧
    (mkDefaultCell "age" 0).makeComparator "age" (some (-1))
      = some (fun left right =>
          (mkDefaultCell "age" 0).comparator
            ((mkDefaultCell "age" 0).value left "age")
            ((mkDefaultCell "age" 0).value right "age")) :=
  c1_sign_mapping (mkDefaultCell "age" 0) "age" (by decide)

/-- C4.  Sorting the plain local collection `[{age:30},{age:10},{age:20}]`
on attribute `age` with direction ascending (default value extractor and
default base comparator) reorders the models to ages `[10, 20, 30]`;
descending reorders them to `[30, 20, 10]`. -/
theorem c4_local_age_sort :
    (((mkDefaultCell "age" 0).sort ageCollection "age"
        (some "ascending")).1.models.map (fun m => m.get "age"))
      = [some 10, some 20, some 30] ∧
    (((mkDefaultCell "age" 0).sort ageCollection "age"
        (some "descending")).1.models.map (fun m => m.get "age"))
      = [some 30, some 20, some 10] := by
  constructor <;> rfl

/-- C5.  For every cell, attribute and input pair, the comparator produced
at sign `-1` returns the exact negation of the one produced at sign `+1`,
provided the base comparator is antisymmetric on the extracted values of
that pair (ties returning 0 is the `a = -a ↔ a = 0` instance of this). -/
theorem c5_negation (cell : HeaderCell) (attr : String) (left right : Model)
    (hattr : attr ≠ "")
    (hanti : cell.comparator (cell.value left attr) (cell.value right attr)
      = - cell.comparator (cell.value right attr) (cell.value left attr))
    (f g : Model → Model → Int)
    (hf : cell.makeComparator attr (some (-1)) = some f)
    (hg : cell.makeComparator attr (some 1) = some g) :
    f left right = - g left right := by
  norm_num [HeaderCell.makeComparator, hattr] at hf hg
  obtain ⟨-, hf⟩ := hf
  obtain ⟨-, hg⟩ := hg
  subst hf
  subst hg
  simpa using hanti

/-- Witness for `c5_negation`: default cell, ages `10` and `20`. -/
theorem c5_negation_witness :
    (fun left right =>
        (mkDefaultCell "age" 0).comparator
          ((mkDefaultCell "age" 0).value left "age")
          ((mkDefaultCell "age" 0).value right "age")) rec10 rec20
      = - (fun left right =>
        (mkDefaultCell "age" 0).comparator
          ((mkDefaultCell "age" 0).value right "age")
          ((mkDefaultCell "age" 0).value left "age")) rec10 rec20 :=
  c5_negation (mkDefaultCell "age" 0) "age" rec10 rec20 (by decide) (by decide)
    _ _ rfl rfl

/-- C7.  Every call to `sort`, whatever dispatch branch runs, triggers
exactly one `backgrid:sort` event, carrying the column name, the direction,
the comparator used, and the collection reference. -/
theorem c7_single_broadcast (cell : HeaderCell) (collection : Collection)
    (columnName : String) (direction : Option String) :
    (cell.sort collection columnName direction).2
      = [⟨columnName, direction,
          (cell.makeComparator columnName (sortSign direction)).getD
            _cidComparator,
          collection.id⟩] := by
  cases h : collection.kind <;> simp [HeaderCell.sort, h]

/-- C9.  Clicking a header cell whose `sortable` evaluates to false is a
no-op: the cells (hence this cell's direction), the collection (comparator,
model order, sorting parameters, fetches) are unchanged and no event is
broadcast. -/
theorem c9_unsortable_noop (cells : List HeaderCell) (collection : Collection)
    (i : Nat) (cell : HeaderCell) (hc : cells[i]? = some cell)
    (hs : cell.sortable = false) :
    clickCell cells collection i = (cells, collection, []) := by
  simp [clickCell, hc, HeaderCell.onClick, hs]

/-- Witness for `c9_unsortable_noop`: one unsortable cell. -/
theorem c9_unsortable_noop_witness :
    clickCell [{ mkDefaultCell "age" 0 with sortable := false }]
        ageCollection 0
      = ([{ mkDefaultCell "age" 0 with sortable := false }],
          ageCollection, []) :=
  c9_unsortable_noop _ _ 0 _ rfl rfl

/-- C10.  The cid fallback comparator returns `0` whenever either record's
cid is undefined; when both are defined and their suffixes convert to
numbers `a` and `b`, it returns `-1` when `a < b`, `1` when `a > b`, and
`0` when they are equal. -/
theorem c10_cid_comparator (left right : Model) :
    (left.cid = none → _cidComparator left right = 0) ∧
    (right.cid = none → _cidComparator left right = 0) ∧
    (∀ lcid rcid a b, left.cid = some lcid → right.cid = some rcid →
      jsStringToNumber (jsSlice1 lcid) = some a →
      jsStringToNumber (jsSlice1 rcid) = some b →
      _cidComparator left right
        = if a < b then -1 else if b < a then 1 else 0) := by
  refine ⟨?_, ?_, ?_⟩
  · intro h
    simp [_cidComparator, h]
  · intro h
    cases hl : left.cid <;> simp [_cidComparator, h, hl]
  · intro lcid rcid a b hl hr ha hb
    simp only [_cidComparator, hl, hr, ha, hb, jsLt]
    rcases lt_trichotomy a b with h | h | h
    · simp [h]
    · simp [h, lt_irrefl]
    · simp [h, not_lt_of_gt h]

/-- C8 (counterexample).  The claim says a direction outside the three
enumerated states makes `sort` fail fast (throw).  Dispatching the direction
`"bogus"` instead completes normally: the sign is silently coerced to
absent, the insertion-order fallback comparator is installed, and the
broadcast fires, carrying the raw `"bogus"` value. -/
theorem c8_counterexample :
    sortSign (some "bogus") = none ∧
    ((mkDefaultCell "age" 0).sort ageCollection "age"
        (some "bogus")).1.comparator = some _cidComparator ∧
    ((mkDefaultCell "age" 0).sort ageCollection "age" (some "bogus")).2
      = [⟨"age", some "bogus", _cidComparator, 0⟩] :=
  ⟨rfl, rfl, rfl⟩

/-- C8 (amended).  A call to `sort` with a direction other than the two
recognised strings (including any malformed value) is not rejected: the
direction is silently coerced to the absent sign, the comparator factory
yields nothing, and the dispatch completes with the insertion-order fallback
comparator, broadcasting the raw direction value. -/
theorem c8_silent_coercion (cell : HeaderCell) (collection : Collection)
    (columnName : String) (direction : Option String)
    (h1 : direction ≠ some "ascending") (h2 : direction ≠ some "descending") :
    sortSign direction = none ∧
    cell.makeComparator columnName (sortSign direction) = none ∧
    (cell.sort collection columnName direction).2
      = [⟨columnName, direction, _cidComparator, collection.id⟩] := by
  have hs : sortSign direction = none := by simp [sortSign, h1, h2]
  have hm : cell.makeComparator columnName (sortSign direction) = none := by
    simp [hs, HeaderCell.makeComparator]
  exact ⟨hs, hm, by simp [HeaderCell.sort, hm]⟩

/-- Witness for `c8_silent_coercion` at the malformed direction
`"sideways"`. -/
theorem c8_silent_coercion_witness :
    sortSign (some "sideways") = none ∧
    (mkDefaultCell "age" 0).makeComparator "age" (sortSign (some "sideways"))
      = none ∧
    ((mkDefaultCell "age" 0).sort ageCollection "age" (some "sideways")).2
      = [⟨"age", some "sideways", _cidComparator, ageCollection.id⟩] :=
  c8_silent_coercion (mkDefaultCell "age" 0) ageCollection "age"
    (some "sideways") (by decide) (by decide)

/-- Witness for `c10_cid_comparator`: cids `c9`/`c10` (numeric compare, not
lexicographic), and an undefined cid. -/
theorem c10_cid_comparator_witness :
    _cidComparator ⟨some "c9", []⟩ ⟨some "c10", []⟩ = -1 ∧
    _cidComparator ⟨none, []⟩ rec10 = 0 := by
  constructor
  · have h := (c10_cid_comparator ⟨some "c9", []⟩ ⟨some "c10", []⟩).2.2
      "c9" "c10" 9 10 rfl rfl (by decide) (by decide)
    simpa using h
  · exact (c10_cid_comparator ⟨none, []⟩ rec10).1 rfl

/-! ## Helper lemmas on the dispatch and the broadcast -/

/-- Dispatching never changes the collection's reference identity. -/
theorem sort_preserves_id (cell : HeaderCell) (collection : Collection)
    (columnName : String) (direction : Option String) :
    ((cell.sort collection columnName direction).1).id = collection.id := by
  cases hk : collection.kind <;> simp [HeaderCell.sort, hk]

/-- The event list of one dispatch, spelled out. -/
theorem sort_events_eq (cell : HeaderCell) (collection : Collection)
    (columnName : String) (direction : Option String) :
    (cell.sort collection columnName direction).2
      = [⟨columnName, direction,
          (cell.makeComparator columnName (sortSign direction)).getD
            _cidComparator,
          collection.id⟩] := rfl

/-- Delivering an event whose collection and column match a cell's sets that
cell's direction to the event's direction. -/
theorem broadcast_getElem_self (cells : List HeaderCell) (i : Nat)
    (cell : HeaderCell) (hc : cells[i]? = some cell) (ev : SortEvent)
    (hcol : ev.collectionId = cell.collectionId)
    (hname : ev.columnName = cell.columnName) :
    (broadcast cells ev)[i]? = some { cell with _direction := ev.direction } := by
  simp [broadcast, List.getElem?_map, hc, HeaderCell._resetCellDirection,
    hcol, hname]

/-- One click on a sortable cell bound to the shown collection: the cell's
direction advances by the cycle and the collection keeps its identity. -/
theorem clickStep_cell (cells : List HeaderCell) (collection : Collection)
    (i : Nat) (cell : HeaderCell) (hc : cells[i]? = some cell)
    (hs : cell.sortable = true) (hid : cell.collectionId = collection.id) :
    (clickStep cells collection i).1[i]?
      = some { cell with _direction :=
          (if cell._direction = some "ascending" then some "descending"
            else if cell._direction = some "descending" then none
            else some "ascending") } ∧
    (clickStep cells collection i).2.id = collection.id := by
  have hcells : (clickStep cells collection i).1
      = (cell.onClick collection).2.foldl broadcast cells := by
    simp [clickStep, clickCell, hc]
  have hcoll : (clickStep cells collection i).2
      = (cell.onClick collection).1 := by
    simp [clickStep, clickCell, hc]
  unfold HeaderCell.onClick at hcells hcoll
  rw [hs] at hcells hcoll
  simp only [if_true] at hcells hcoll
  constructor
  · rw [hcells]
    split_ifs with h1 h2 <;>
      · rw [sort_events_eq, List.foldl_cons, List.foldl_nil]
        exact broadcast_getElem_self cells i cell hc _ hid.symm rfl
  · rw [hcoll]
    split_ifs <;> exact sort_preserves_id _ _ _ _

/-- Iterated clicks on the `i`-th header cell. -/
def iterClick (s : List HeaderCell × Collection) (i : Nat) :
    Nat → List HeaderCell × Collection
  | 0 => s
  | n + 1 => iterClick (clickStep s.1 s.2 i) i n

/-- C2.  Three consecutive clicks on a sortable header cell, starting from
the `none` state, drive its direction through `ascending`, `descending`,
`none` — the strict cycle — returning it to the starting state. -/
theorem c2_click_cycle (cells : List HeaderCell) (collection : Collection)
    (i : Nat) (cell : HeaderCell) (hc : cells[i]? = some cell)
    (hs : cell.sortable = true) (hid : cell.collectionId = collection.id)
    (hd : cell._direction = none) :
    (((iterClick (cells, collection) i 1).1[i]?).map HeaderCell._direction
        = some (some "ascending")) ∧
    (((iterClick (cells, collection) i 2).1[i]?).map HeaderCell._direction
        = some (some "descending")) ∧
    (((iterClick (cells, collection) i 3).1[i]?).map HeaderCell._direction
        = some none) := by
  obtain ⟨h1c, h1i⟩ := clickStep_cell cells collection i cell hc hs hid
  rw [hd] at h1c
  simp only [reduceCtorEq, if_false] at h1c
  obtain ⟨h2c, h2i⟩ := clickStep_cell _ _ i _ h1c hs (hid.trans h1i.symm)
  simp at h2c
  obtain ⟨h3c, h3i⟩ :=
    clickStep_cell _ _ i _ h2c hs ((hid.trans h1i.symm).trans h2i.symm)
  simp at h3c
  have e1 : iterClick (cells, collection) i 1
      = clickStep cells collection i := rfl
  have e2 : iterClick (cells, collection) i 2
      = clickStep (clickStep cells collection i).1
          (clickStep cells collection i).2 i := rfl
  have e3 : iterClick (cells, collection) i 3
      = clickStep
          (clickStep (clickStep cells collection i).1
            (clickStep cells collection i).2 i).1
          (clickStep (clickStep cells collection i).1
            (clickStep cells collection i).2 i).2 i := rfl
  refine ⟨?_, ?_, ?_⟩
  · rw [e1, h1c]; rfl
  · rw [e2, h2c]; rfl
  · rw [e3, h3c]; rfl

/-- Witness for `c2_click_cycle`: one sortable default cell on the example
collection. -/
theorem c2_click_cycle_witness :
    (((iterClick ([mkDefaultCell "age" 0], ageCollection) 0 1).1[0]?).map
        HeaderCell._direction = some (some "ascending")) ∧
    (((iterClick ([mkDefaultCell "age" 0], ageCollection) 0 2).1[0]?).map
        HeaderCell._direction = some (some "descending")) ∧
    (((iterClick ([mkDefaultCell "age" 0], ageCollection) 0 3).1[0]?).map
        HeaderCell._direction = some none) :=
  c2_click_cycle [mkDefaultCell "age" 0] ageCollection 0
    (mkDefaultCell "age" 0) rfl rfl rfl rfl

/-- Projections of `_resetCellDirection`: only the direction can change, and
it becomes the event's direction on a collection-and-column match, `none` on
a collection match with another column, and stays put otherwise. -/
theorem reset_direction_cases (c : HeaderCell) (ev : SortEvent) :
    (c._resetCellDirection ev).collectionId = c.collectionId ∧
    (c._resetCellDirection ev).columnName = c.columnName ∧
    (c._resetCellDirection ev)._direction
      = if ev.collectionId = c.collectionId then
          (if ev.columnName = c.columnName then ev.direction else none)
        else c._direction := by
  unfold HeaderCell._resetCellDirection
  split_ifs with h1 h2 <;> simp_all

/-- Counting active cells after one broadcast: every listening cell's
direction is overwritten (to the event's direction on the named column,
`none` elsewhere), so the active count among listeners collapses to the
number of listeners bearing the dispatched name — or to zero when the
broadcast direction is `none`.  Non-listeners keep their direction but are
not counted. -/
theorem countP_broadcast_eq (cells : List HeaderCell) (columnName : String)
    (direction : Option String) (cmp : Model → Model → Int) (collId : Nat) :
    (broadcast cells ⟨columnName, direction, cmp, collId⟩).countP
        (fun c => decide (c.collectionId = collId ∧ c._direction ≠ none))
      = if direction = none then 0
        else cells.countP
          (fun c => decide (c.collectionId = collId ∧
            c.columnName = columnName)) := by
  induction cells with
  | nil => by_cases h : direction = none <;> simp [broadcast, h]
  | cons c cs ih =>
    simp only [broadcast, List.map_cons, List.countP_cons] at ih ⊢
    rw [ih]
    have hpfc : decide
          ((c._resetCellDirection
              ⟨columnName, direction, cmp, collId⟩).collectionId = collId ∧
            (c._resetCellDirection
              ⟨columnName, direction, cmp, collId⟩)._direction ≠ none)
        = if direction = none then false
          else decide (c.collectionId = collId ∧
            c.columnName = columnName) := by
      unfold HeaderCell._resetCellDirection
      by_cases hcid : collId = c.collectionId <;>
        by_cases hname : columnName = c.columnName <;>
        by_cases hdir : direction = none <;>
        simp_all [eq_comm]
    rw [hpfc]
    by_cases hdir : direction = none <;> simp [hdir]

/-- C3.  After a sort dispatch completes (dispatch plus broadcast), among
the header cells listening to the dispatched collection exactly one has a
non-`none` direction — the cell bearing the dispatched column name — or
zero when the dispatched direction was `none`; cells bound to a different
collection are untouched. -/
theorem c3_single_active (cells : List HeaderCell) (collection : Collection)
    (cell : HeaderCell) (columnName : String) (direction : Option String)
    (huniq : cells.countP
        (fun c => decide (c.collectionId = collection.id ∧
          c.columnName = columnName)) = 1) :
    ((dispatchSort cells collection cell columnName direction).1.countP
        (fun c => decide (c.collectionId = collection.id ∧
          c._direction ≠ none))
      = if direction = none then 0 else 1) ∧
    (∀ (j : Nat) (c' : HeaderCell), cells[j]? = some c' →
      c'.collectionId = collection.id → c'.columnName ≠ columnName →
      (dispatchSort cells collection cell columnName direction).1[j]?
        = some { c' with _direction := none }) ∧
    (∀ (j : Nat) (c' : HeaderCell), cells[j]? = some c' →
      c'.collectionId ≠ collection.id →
      (dispatchSort cells collection cell columnName direction).1[j]?
        = some c') := by
  have hcells : (dispatchSort cells collection cell columnName direction).1
      = broadcast cells
          ⟨columnName, direction,
            (cell.makeComparator columnName (sortSign direction)).getD
              _cidComparator,
            collection.id⟩ := by
    simp [dispatchSort, sort_events_eq]
  refine ⟨?_, ?_, ?_⟩
  · rw [hcells, countP_broadcast_eq]
    by_cases hdir : direction = none
    · rw [if_pos hdir, if_pos hdir]
    · rw [if_neg hdir, if_neg hdir]
      exact huniq
  · intro j c' hj hcid hname
    have h1 : collection.id = c'.collectionId := hcid.symm
    have h2 : columnName ≠ c'.columnName := fun h => hname h.symm
    rw [hcells]
    simp [broadcast, List.getElem?_map, hj, HeaderCell._resetCellDirection,
      h1, h2]
  · intro j c' hj hne
    have hne' : ¬(collection.id = c'.collectionId) := fun h => hne h.symm
    rw [hcells]
    simp [broadcast, List.getElem?_map, hj, HeaderCell._resetCellDirection,
      hne']

/-- A second header cell for the C3 witness: column `b`, currently showing
`ascending`. -/
def cellB : HeaderCell :=
  { mkDefaultCell "b" 0 with _direction := some "ascending" }

/-- Witness for `c3_single_active`: dispatching `ascending` on column `a`
leaves exactly one active cell even though column `b` was showing
`ascending` before. -/
theorem c3_single_active_witness :
    ([mkDefaultCell "a" 0, cellB].countP
        (fun c => decide (c.collectionId = ageCollection.id ∧
          c.columnName = "a")) = 1) ∧
    ((dispatchSort [mkDefaultCell "a" 0, cellB] ageCollection
        (mkDefaultCell "a" 0) "a" (some "ascending")).1.countP
        (fun c => decide (c.collectionId = ageCollection.id ∧
          c._direction ≠ none))
      = if (some "ascending" : Option String) = none then 0 else 1) :=
  ⟨by decide,
    (c3_single_active [mkDefaultCell "a" 0, cellB] ageCollection
      (mkDefaultCell "a" 0) "a" (some "ascending") (by decide)).1⟩

/-! ## The insertion-order fallback (claim C6) -/

/-- The creation sequence number of a model: the numeric part of its cid,
as `_cidComparator` computes it (`cid.slice(1) * 1`). -/
def cidNum (m : Model) : Option Int :=
  m.cid.bind fun c => jsStringToNumber (jsSlice1 c)

/-- Unfolds `jsLt` into existence of two numbers in strict order. -/
theorem jsLt_iff (o₁ o₂ : Option Int) :
    jsLt o₁ o₂ = true ↔ ∃ x y, o₁ = some x ∧ o₂ = some y ∧ x < y := by
  cases o₁ <;> cases o₂ <;> simp [jsLt]

/-- The cid comparator, expressed through the two creation numbers when both
are defined. -/
theorem cid_cmp_eq (a b : Model) (x y : Int) (ha : cidNum a = some x)
    (hb : cidNum b = some y) :
    _cidComparator a b = if x < y then -1 else if y < x then 1 else 0 := by
  unfold cidNum at ha hb
  cases hca : a.cid with
  | none => rw [hca] at ha; exact absurd ha (by simp)
  | some ca =>
    cases hcb : b.cid with
    | none => rw [hcb] at hb; exact absurd hb (by simp)
    | some cb =>
      rw [hca] at ha
      rw [hcb] at hb
      simp only [Option.some_bind] at ha hb
      unfold _cidComparator
      rw [hca, hcb]
      simp only [ha, hb, jsLt]
      simp

/-- Insertion into a sorted list stays sorted, when the relation is total
and transitive on the elements involved (it need not be total or transitive
globally). -/
theorem sorted_orderedInsert_of_forall {α : Type} (r : α → α → Prop)
    [DecidableRel r] (P : α → Prop)
    (htot : ∀ a b, P a → P b → r a b ∨ r b a)
    (htrans : ∀ a b c, P a → P b → P c → r a b → r b c → r a c) :
    ∀ (a : α) (l : List α), P a → (∀ x ∈ l, P x) → l.Sorted r →
      (l.orderedInsert r a).Sorted r
  | a, [], _, _, _ => List.sorted_singleton a
  | a, b :: l, ha, hl, hs => by
    unfold List.orderedInsert
    by_cases hr : r a b
    · rw [if_pos hr, List.sorted_cons]
      refine ⟨?_, hs⟩
      intro c hc
      rcases List.mem_cons.mp hc with rfl | hc
      · exact hr
      · exact htrans a b c ha (hl b (List.mem_cons_self b l))
          (hl c (List.mem_cons_of_mem b hc)) hr
          ((List.sorted_cons.mp hs).1 c hc)
    · rw [if_neg hr, List.sorted_cons]
      constructor
      · intro c hc
        rcases (List.mem_orderedInsert r).mp hc with rfl | hc
        · exact (htot c b ha (hl b (List.mem_cons_self b l))).resolve_left hr
        · exact (List.sorted_cons.mp hs).1 c hc
      · exact sorted_orderedInsert_of_forall r P htot htrans a l ha
          (fun x hx => hl x (List.mem_cons_of_mem b hx))
          (List.sorted_cons.mp hs).2

/-- Insertion sort sorts, when the relation is total and transitive on the
list's elements. -/
theorem sorted_insertionSort_of_forall {α : Type} (r : α → α → Prop)
    [DecidableRel r] (P : α → Prop)
    (htot : ∀ a b, P a → P b → r a b ∨ r b a)
    (htrans : ∀ a b c, P a → P b → P c → r a b → r b c → r a c) :
    ∀ l : List α, (∀ x ∈ l, P x) → (l.insertionSort r).Sorted r
  | [], _ => List.sorted_nil
  | a :: l, hl => by
    rw [List.insertionSort]
    exact sorted_orderedInsert_of_forall r P htot htrans a
      (l.insertionSort r) (hl a (List.mem_cons_self a l))
      (fun x hx => hl x
        (List.mem_cons_of_mem a ((List.mem_insertionSort r).mp hx)))
      (sorted_insertionSort_of_forall r P htot htrans l
        (fun x hx => hl x (List.mem_cons_of_mem a hx)))

/-- Sorting any permutation of a cid-increasing list with the cid fallback
comparator restores that list: the insertion order, independent of every
attribute value. -/
theorem sortModels_cid_restores (l p : List Model)
    (hdef : ∀ m ∈ l, (cidNum m).isSome = true)
    (hsorted : l.Pairwise (fun a b => jsLt (cidNum a) (cidNum b) = true))
    (hperm : p.Perm l) :
    sortModels _cidComparator p = l := by
  have hperm2 : (sortModels _cidComparator p).Perm l :=
    (List.perm_insertionSort _ p).trans hperm
  have hdefs : ∀ m ∈ sortModels _cidComparator p, (cidNum m).isSome = true :=
    fun m hm => hdef m (hperm2.mem_iff.mp hm)
  have hsorted_le : (sortModels _cidComparator p).Sorted
      (fun a b => _cidComparator a b ≤ 0) := by
    unfold sortModels
    apply sorted_insertionSort_of_forall _ (fun m => (cidNum m).isSome = true)
    · intro a b ha hb
      obtain ⟨x, hx⟩ := Option.isSome_iff_exists.mp ha
      obtain ⟨y, hy⟩ := Option.isSome_iff_exists.mp hb
      rw [cid_cmp_eq a b x y hx hy, cid_cmp_eq b a y x hy hx]
      split_ifs <;> omega
    · intro a b c ha hb hc hab hbc
      obtain ⟨x, hx⟩ := Option.isSome_iff_exists.mp ha
      obtain ⟨y, hy⟩ := Option.isSome_iff_exists.mp hb
      obtain ⟨z, hz⟩ := Option.isSome_iff_exists.mp hc
      rw [cid_cmp_eq a b x y hx hy] at hab
      rw [cid_cmp_eq b c y z hy hz] at hbc
      rw [cid_cmp_eq a c x z hx hz]
      split_ifs at * <;> omega
    · intro x hx
      exact hdef x (hperm.mem_iff.mp hx)
  have hne_l : l.Pairwise (fun a b : Model => cidNum a ≠ cidNum b) := by
    refine hsorted.imp ?_
    intro a b hab
    obtain ⟨x, y, hx, hy, hxy⟩ := (jsLt_iff _ _).mp hab
    rw [hx, hy]
    simp
    omega
  have hsymm : ∀ {a b : Model}, cidNum a ≠ cidNum b → cidNum b ≠ cidNum a :=
    fun h e => h e.symm
  have hne_s : (sortModels _cidComparator p).Pairwise
      (fun a b => cidNum a ≠ cidNum b) :=
    (hperm2.pairwise_iff hsymm).mpr hne_l
  have hstrict : (sortModels _cidComparator p).Pairwise
      (fun a b => jsLt (cidNum a) (cidNum b) = true) := by
    refine List.Pairwise.imp_of_mem ?_ (hsorted_le.and hne_s)
    intro a b ha hb hab
    obtain ⟨hle, hne⟩ := hab
    obtain ⟨x, hx⟩ := Option.isSome_iff_exists.mp (hdefs a ha)
    obtain ⟨y, hy⟩ := Option.isSome_iff_exists.mp (hdefs b hb)
    rw [cid_cmp_eq a b x y hx hy] at hle
    rw [hx, hy] at hne ⊢
    rw [jsLt_iff]
    refine ⟨x, y, rfl, rfl, ?_⟩
    have hxy : x ≠ y := by simpa using hne
    split_ifs at hle <;> omega
  haveI : IsAntisymm Model (fun a b => jsLt (cidNum a) (cidNum b) = true) := by
    constructor
    intro a b hab hba
    obtain ⟨x, y, hx, hy, hxy⟩ := (jsLt_iff _ _).mp hab
    obtain ⟨y', x', hy', hx', hyx⟩ := (jsLt_iff _ _).mp hba
    rw [hx] at hx'
    rw [hy] at hy'
    simp only [Option.some.injEq] at hx' hy'
    omega
  exact List.eq_of_perm_of_sorted hperm2 hstrict hsorted

/-- C6.  Dispatching `sort` with direction `none` makes the comparator
factory produce nothing, installs the stable insertion-order fallback
`_cidComparator` instead, and — whatever value-based order the plain local
collection currently has — restores the models to creation-sequence order
(the numeric part of the cids), never an attribute-value order. -/
theorem c6_none_restores_insertion_order (cell : HeaderCell)
    (collection : Collection) (columnName : String) (l : List Model)
    (hkind : collection.kind = .plain)
    (hdef : ∀ m ∈ l, (cidNum m).isSome = true)
    (hsorted : l.Pairwise (fun a b => jsLt (cidNum a) (cidNum b) = true))
    (hperm : collection.models.Perm l) :
    cell.makeComparator columnName (sortSign none) = none ∧
    (cell.sort collection columnName none).1.comparator
      = some _cidComparator ∧
    (cell.sort collection columnName none).1.models = l := by
  have hmc : cell.makeComparator columnName (sortSign none) = none := by
    simp [HeaderCell.makeComparator, sortSign]
  have hsort1 : (cell.sort collection columnName none).1
      = { collection with
          comparator := some _cidComparator
          models := sortModels _cidComparator collection.models } := by
    simp only [HeaderCell.sort, hmc, hkind, Option.getD_none]
  refine ⟨hmc, ?_, ?_⟩ <;> rw [hsort1]
  exact sortModels_cid_restores l collection.models hdef hsorted hperm

/-- The example collection as a prior ascending `age` sort leaves it:
models ordered by value, cids recording the original creation order. -/
def ageSortedCollection : Collection :=
  ⟨0, .plain, [rec10, rec20, rec30], some _cidComparator, none, 0⟩

/-- Witness for `c6_none_restores_insertion_order`: the value-sorted
example collection returns to creation order `[rec30, rec10, rec20]`. -/
theorem c6_none_restores_insertion_order_witness :
    ((mkDefaultCell "age" 0).sort ageSortedCollection "age" none).1.models
      = [rec30, rec10, rec20] :=
  (c6_none_restores_insertion_order (mkDefaultCell "age" 0)
    ageSortedCollection "age" [rec30, rec10, rec20] rfl (by decide)
    (by decide) (by decide)).2.2

end Backgrid
